import Mathlib

/-!
Shallow embedding of the anomaly detection core of the
ainesh01/anomaly_detection repository (Go), covering:

- internal/services/anomaly_service.go
  (AnomalyService.DetectAnomalies, compareValues, IsValidOperator,
   AnomalyService.GetAnomaliesByJobID, AnomalyService.DetectAnomaliesForAllJobs)
- internal/services/database_service.go
  (AnomalyRuleService.GetAnomalyRules, AnomalyRuleService.CreateAnomalyRule)
- internal/models (JobData, Anomaly, AnomalyRule, the AnomalyType and
  ComparisonOperator string constants)

Modelling conventions:

- Go float64 values are modelled by the type GoFloat: exact rationals
  extended with the IEEE special values +Inf, -Inf and NaN.  The embedded
  arithmetic is exact where the Go arithmetic incurs no rounding; the IEEE
  rules for division by zero, infinities and NaN comparisons are modelled
  case by case, which is what the detection logic depends on.  Negative
  zero is not modelled (the rational 0 stands for +0).
- Database effects are made explicit: the statistics query and the rule
  query are passed to detectAnomalies as Except values (their outcome),
  the per-finding INSERT is a Boolean predicate on the finding (whether
  that insert succeeds), stores are lists.
- Timestamps: rule creation times are modelled as naturals (only their
  order matters, for the ORDER BY created at DESC of GetAnomalyRules).
  The CreatedAt field of findings, the assigned row IDs and the
  formatted z-score inside deviation descriptions are not modelled; no
  claim depends on them.
- Go string-typed enumerations (AnomalyType, ComparisonOperator) stay
  strings, exactly as in the source, so that unknown values flow through
  the same default branches as in the Go switch statements.
-/

/-- ratSub is exact rational subtraction, spelled through mkRat so that
it evaluates inside the kernel (the library subtraction is irreducible);
the theorem ratSub_eq below identifies it with the standard one. -/
def ratSub (a b : ℚ) : ℚ := mkRat (a.num * b.den - b.num * a.den) (a.den * b.den)

/-- ratDiv is exact rational division, spelled through Rat.divInt so that
it evaluates inside the kernel; the theorem ratDiv_eq below identifies it
with the standard one. -/
def ratDiv (a b : ℚ) : ℚ := Rat.divInt (a.num * b.den) (a.den * b.num)

/-- GoFloat models a Go float64: an exact rational, or one of the IEEE
special values. -/
inductive GoFloat where
  | finite (q : ℚ)
  | posInf
  | negInf
  | nan
deriving DecidableEq

namespace GoFloat

/-- Subtraction, with the IEEE rules for infinities and NaN. -/
def sub : GoFloat → GoFloat → GoFloat
  | nan, _ => nan
  | _, nan => nan
  | finite a, finite b => finite (ratSub a b)
  | finite _, posInf => negInf
  | finite _, negInf => posInf
  | posInf, finite _ => posInf
  | posInf, posInf => nan
  | posInf, negInf => posInf
  | negInf, finite _ => negInf
  | negInf, posInf => negInf
  | negInf, negInf => nan

/-- Division, with the IEEE rules: a nonzero finite value divided by zero
gives a signed infinity, zero divided by zero gives NaN (Go float64
division never traps). -/
def div : GoFloat → GoFloat → GoFloat
  | nan, _ => nan
  | _, nan => nan
  | finite a, finite b =>
      if b = 0 then
        if a = 0 then nan else if 0 < a then posInf else negInf
      else finite (ratDiv a b)
  | finite _, posInf => finite 0
  | finite _, negInf => finite 0
  | posInf, finite b => if 0 ≤ b then posInf else negInf
  | negInf, finite b => if 0 ≤ b then negInf else posInf
  | posInf, posInf => nan
  | posInf, negInf => nan
  | negInf, posInf => nan
  | negInf, negInf => nan

/-- Absolute value (math.Abs): NaN stays NaN, both infinities map to +Inf. -/
def abs : GoFloat → GoFloat
  | finite q => finite |q|
  | nan => nan
  | _ => posInf

/-- Strict greater-than: any comparison involving NaN is false. -/
def gt : GoFloat → GoFloat → Bool
  | nan, _ => false
  | _, nan => false
  | finite a, finite b => decide (b < a)
  | finite _, posInf => false
  | finite _, negInf => true
  | posInf, finite _ => true
  | posInf, posInf => false
  | posInf, negInf => true
  | negInf, _ => false

/-- Greater-or-equal: any comparison involving NaN is false. -/
def ge : GoFloat → GoFloat → Bool
  | nan, _ => false
  | _, nan => false
  | finite a, finite b => decide (b ≤ a)
  | finite _, posInf => false
  | finite _, negInf => true
  | posInf, _ => true
  | negInf, negInf => true
  | negInf, _ => false

/-- Strict less-than (a < b iff b > a, also under IEEE). -/
def lt (a b : GoFloat) : Bool := gt b a

/-- Less-or-equal (a <= b iff b >= a, also under IEEE). -/
def le (a b : GoFloat) : Bool := ge b a

/-- IEEE equality: NaN is equal to nothing, not even itself. -/
def beq : GoFloat → GoFloat → Bool
  | nan, _ => false
  | _, nan => false
  | finite a, finite b => decide (a = b)
  | posInf, posInf => true
  | negInf, negInf => true
  | _, _ => false

end GoFloat

/-- Decidable equality of Except values, so that concrete runs of the
embedded operations can be checked by decide. -/
instance exceptDecEq {ε α : Type} [DecidableEq ε] [DecidableEq α] :
    DecidableEq (Except ε α) := fun a b =>
  match a, b with
  | .error x, .error y =>
    match decEq x y with
    | isTrue h => isTrue (h ▸ rfl)
    | isFalse h => isFalse fun c => h (Except.error.inj c)
  | .ok x, .ok y =>
    match decEq x y with
    | isTrue h => isTrue (h ▸ rfl)
    | isFalse h => isFalse fun c => h (Except.ok.inj c)
  | .error _, .ok _ => isFalse fun c => Except.noConfusion c
  | .ok _, .error _ => isFalse fun c => Except.noConfusion c

/-- JobData models internal/models JobData, restricted to the fields the
detection code reads.  MinSalary and MaxSalary are pointers in Go, hence
Option here; CompanyRating is a plain float64 (never absent). -/
structure JobData where
  companyName : String
  companyRating : GoFloat
  companyAddress : String
  companyWebsite : String
  jobTitle : String
  jobID : String
  jobLink : String
  jobDescription : String
  minSalary : Option GoFloat
  maxSalary : Option GoFloat
  city : String
deriving DecidableEq

/-- Statistics mirrors the Statistics struct of anomaly_service.go,
restricted to the four fields filled in by getStatistics. -/
structure Statistics where
  avgSalary : GoFloat
  salaryStdDev : GoFloat
  avgRating : GoFloat
  ratingStdDev : GoFloat
deriving DecidableEq

/-- Anomaly mirrors models.Anomaly restricted to the fields the detection
code writes (ID, CreatedAt and the formatted z-score inside descriptions
are not modelled). -/
structure Anomaly where
  jobID : String
  type : String
  description : String
  value : GoFloat
  threshold : GoFloat
  operator : String
  violations : List String
deriving DecidableEq

/-- AnomalyRule mirrors models.AnomalyRule; createdAt is a natural
standing for the creation timestamp (only its order matters). -/
structure AnomalyRule where
  id : Int
  name : String
  description : String
  type : String
  operator : String
  value : GoFloat
  isActive : Bool
  createdAt : Nat
deriving DecidableEq

/-- StdDevThreshold is the fixed z-score cutoff of anomaly_service.go
(StdDevThreshold = 3.0). -/
def StdDevThreshold : ℚ := 3

/-- ValidOperators of anomaly_service.go as the underlying strings. -/
def ValidOperators : List String := [">", ">=", "<", "<=", "="]

/-- IsValidOperator of anomaly_service.go: membership in ValidOperators. -/
def IsValidOperator (op : String) : Bool := ValidOperators.contains op

/-- compareValues of anomaly_service.go: the switch over the operator
string, with the default branch returning false for unknown operators. -/
def compareValues (value threshold : GoFloat) (operator : String) : Bool :=
  if operator = ">" then value.gt threshold
  else if operator = ">=" then value.ge threshold
  else if operator = "<" then value.lt threshold
  else if operator = "<=" then value.le threshold
  else if operator = "=" then value.beq threshold
  else false

/-- The seven required field names, in the order the null-check of
DetectAnomalies tests them. -/
def requiredFields : List String :=
  ["company_name", "job_title", "job_description", "city",
   "company_address", "company_website", "job_link"]

/-- fieldValue reads the string field of a JobData named by one of the
required field names (used only to state properties of nullViolations). -/
def fieldValue (job : JobData) (field : String) : String :=
  if field = "company_name" then job.companyName
  else if field = "job_title" then job.jobTitle
  else if field = "job_description" then job.jobDescription
  else if field = "city" then job.city
  else if field = "company_address" then job.companyAddress
  else if field = "company_website" then job.companyWebsite
  else if field = "job_link" then job.jobLink
  else ""

/-- nullViolations is the violation list built by the null-check section
of DetectAnomalies: one conditional append per required field, in source
order. -/
def nullViolations (job : JobData) : List String :=
  (if job.companyName = "" then ["company_name"] else []) ++
  (if job.jobTitle = "" then ["job_title"] else []) ++
  (if job.jobDescription = "" then ["job_description"] else []) ++
  (if job.city = "" then ["city"] else []) ++
  (if job.companyAddress = "" then ["company_address"] else []) ++
  (if job.companyWebsite = "" then ["company_website"] else []) ++
  (if job.jobLink = "" then ["job_link"] else [])

/-- nullAnomaly is the Anomaly literal built for a non-empty violation
list in DetectAnomalies. -/
def nullAnomaly (job : JobData) : Anomaly :=
  { jobID := job.jobID
    type := "null_values"
    description := "Required fields are null"
    value := GoFloat.finite 0
    threshold := GoFloat.finite 0
    operator := "="
    violations := nullViolations job }

/-- salaryDeviationAnomaly is the Anomaly literal built when the
max-salary z-score exceeds the threshold (the formatted z-score suffix of
the Go description is not modelled). -/
def salaryDeviationAnomaly (job : JobData) (value avgSalary : GoFloat) : Anomaly :=
  { jobID := job.jobID
    type := "standard_deviation"
    description := "Salary deviates significantly from mean"
    value := value
    threshold := avgSalary
    operator := "="
    violations := ["max_salary"] }

/-- ratingDeviationAnomaly is the Anomaly literal built when the
company-rating z-score exceeds the threshold. -/
def ratingDeviationAnomaly (job : JobData) (avgRating : GoFloat) : Anomaly :=
  { jobID := job.jobID
    type := "standard_deviation"
    description := "Company rating deviates significantly from mean"
    value := job.companyRating
    threshold := avgRating
    operator := "="
    violations := ["company_rating"] }

/-- ruleValue resolves the record value for a rule type, mirroring the
switch of the rule loop of DetectAnomalies: the two salary metrics are
pointers (none when the record lacks them), company_rating is always
present, any other type falls to the default branch (skip). -/
def ruleValue (job : JobData) (t : String) : Option GoFloat :=
  if t = "max_salary" then job.maxSalary
  else if t = "min_salary" then job.minSalary
  else if t = "company_rating" then some job.companyRating
  else none

/-- ruleAnomaly is the Anomaly literal built when a rule matches:
value/threshold/operator copied from the evaluation, description from the
rule, no violations list. -/
def ruleAnomaly (job : JobData) (rule : AnomalyRule) (actualValue : GoFloat) : Anomaly :=
  { jobID := job.jobID
    type := rule.type
    description := rule.description
    value := actualValue
    threshold := rule.value
    operator := rule.operator
    violations := [] }

/-- applyRules is the rule loop of DetectAnomalies: inactive rules are
skipped, a rule whose metric the record does not carry is skipped, a
matching rule yields its finding exactly when its insert succeeds, and
the loop always continues to the remaining rules. -/
def applyRules (save : Anomaly → Bool) (job : JobData) :
    List AnomalyRule → List Anomaly
  | [] => []
  | rule :: rest =>
    (match (if rule.isActive then ruleValue job rule.type else none) with
     | none => []
     | some v =>
       if compareValues v rule.value rule.operator then
         if save (ruleAnomaly job rule v) then [ruleAnomaly job rule v] else []
       else []) ++ applyRules save job rest

/-- nullPhase is the null-check section of DetectAnomalies: one finding
when the violation list is non-empty, kept only if its insert succeeds. -/
def nullPhase (save : Anomaly → Bool) (job : JobData) : List Anomaly :=
  if (nullViolations job).length > 0 then
    if save (nullAnomaly job) then [nullAnomaly job] else []
  else []

/-- salaryDevPhase is the max-salary standard deviation section of
DetectAnomalies: skipped when MaxSalary is nil, otherwise the z-score is
computed (with no guard on a zero standard deviation) and compared
strictly against StdDevThreshold. -/
def salaryDevPhase (save : Anomaly → Bool) (stats : Statistics)
    (job : JobData) : List Anomaly :=
  match job.maxSalary with
  | some v =>
    let z := (v.sub stats.avgSalary).div stats.salaryStdDev
    if z.abs.gt (GoFloat.finite StdDevThreshold) then
      if save (salaryDeviationAnomaly job v stats.avgSalary) then
        [salaryDeviationAnomaly job v stats.avgSalary]
      else []
    else []
  | none => []

/-- ratingDevPhase is the company-rating standard deviation section of
DetectAnomalies: skipped when the rating is 0 (the float zero value,
compared with the Go != operator), otherwise the z-score is computed
(again unguarded) and compared strictly against StdDevThreshold. -/
def ratingDevPhase (save : Anomaly → Bool) (stats : Statistics)
    (job : JobData) : List Anomaly :=
  if job.companyRating.beq (GoFloat.finite 0) then []
  else
    let z := (job.companyRating.sub stats.avgRating).div stats.ratingStdDev
    if z.abs.gt (GoFloat.finite StdDevThreshold) then
      if save (ratingDeviationAnomaly job stats.avgRating) then
        [ratingDeviationAnomaly job stats.avgRating]
      else []
    else []

/-- detectOk is the list of findings DetectAnomalies returns when the
statistics query and the rule fetch both succeed: the four sections in
source order, each contributing the findings whose insert succeeded. -/
def detectOk (stats : Statistics) (rules : List AnomalyRule)
    (save : Anomaly → Bool) (job : JobData) : List Anomaly :=
  nullPhase save job ++ salaryDevPhase save stats job ++
    ratingDevPhase save stats job ++ applyRules save job rules

/-- detectAnomalies is AnomalyService.DetectAnomalies.  getStats and
getRules are the outcomes of the statistics query and of the rule fetch;
save tells whether the INSERT of a given finding succeeds (a failed
insert is logged and the finding dropped from the returned list).  On a
statistics or rule-fetch failure the Go code returns (nil, err): the
whole call fails, even though the null-values finding, if any, was
already persisted. -/
def detectAnomalies (getStats : Except String Statistics)
    (getRules : Except String (List AnomalyRule))
    (save : Anomaly → Bool) (job : JobData) :
    Except String (List Anomaly) :=
  match getStats with
  | .error e => .error ("error getting statistics: " ++ e)
  | .ok stats =>
    match getRules with
    | .error e => .error ("error getting anomaly rules via service: " ++ e)
    | .ok rules => .ok (detectOk stats rules save job)

/-- isNullFinding observes a finding of the null-values kind. -/
def isNullFinding (a : Anomaly) : Bool := a.type == "null_values"

/-- isSalaryDevFinding observes a deviation finding for max_salary. -/
def isSalaryDevFinding (a : Anomaly) : Bool :=
  a.type == "standard_deviation" && a.violations == ["max_salary"]

/-- isRatingDevFinding observes a deviation finding for company_rating. -/
def isRatingDevFinding (a : Anomaly) : Bool :=
  a.type == "standard_deviation" && a.violations == ["company_rating"]

/-- isRuleFinding observes a rule-threshold finding (its type is the
rule metric). -/
def isRuleFinding (a : Anomaly) : Bool :=
  a.type == "max_salary" || a.type == "min_salary" ||
    a.type == "company_rating"

/-- insertByCreatedAtDesc inserts a rule into a list that is already in
descending created-at order, keeping that order (stable: among equal
timestamps the earlier element stays first). -/
def insertByCreatedAtDesc (r : AnomalyRule) :
    List AnomalyRule → List AnomalyRule
  | [] => [r]
  | x :: xs =>
    if r.createdAt ≤ x.createdAt then x :: insertByCreatedAtDesc r xs
    else r :: x :: xs

/-- sortByCreatedAtDesc models the ORDER BY created_at DESC of the
GetAnomalyRules query: rules sorted by creation timestamp, newest
first. -/
def sortByCreatedAtDesc : List AnomalyRule → List AnomalyRule
  | [] => []
  | r :: rs => insertByCreatedAtDesc r (sortByCreatedAtDesc rs)

/-- getAnomalyRules is AnomalyRuleService.GetAnomalyRules on a store held
as a list in insertion order: the query returns every rule ordered by
created_at descending (row scan failures are not modelled here; C1
takes the fetch outcome as a whole). -/
def getAnomalyRules (store : List AnomalyRule) : List AnomalyRule :=
  sortByCreatedAtDesc store

/-- createAnomalyRule is AnomalyRuleService.CreateAnomalyRule: it sets
the timestamps and runs the INSERT, with no validation of any rule
field; insertOk abstracts the outcome of the INSERT (the assigned id and
the timestamp writes are not modelled). -/
def createAnomalyRule (insertOk : Bool) (store : List AnomalyRule)
    (rule : AnomalyRule) : Except String (List AnomalyRule) :=
  if insertOk then .ok (store ++ [rule])
  else .error "error creating anomaly rule"

/-- getAnomaliesByJobID is AnomalyService.GetAnomaliesByJobID on a store
held as a list: on query success it returns the rows whose job_id
matches, and explicitly an empty list with no error when there are none.
The ORDER BY created_at DESC of the query is not modelled (finding
timestamps are not modelled); the store order stands for the row
order. -/
def getAnomaliesByJobID (dbOk : Bool) (store : List Anomaly)
    (jobID : String) : Except String (List Anomaly) :=
  if dbOk then
    let rows := store.filter (fun a => a.jobID == jobID)
    if rows.length = 0 then .ok [] else .ok rows
  else .error "error querying anomalies by job ID"

/-- detectAllLoop is the row loop of DetectAnomaliesForAllJobs: each row
is scanned (an Except: a scan failure aborts the whole call), then
DetectAnomalies is invoked on the scanned job; a detection failure is
logged and the loop continues.  The second component is the trace of
DetectAnomalies invocations, in order, made explicit so that the batch
semantics is statable. -/
def detectAllLoop (detect : JobData → Except String (List Anomaly)) :
    List (Except String JobData) →
    Except String Unit × List (Except String (List Anomaly))
  | [] => (.ok (), [])
  | .error e :: _ => (.error ("error scanning job: " ++ e), [])
  | .ok job :: rest =>
    let r := detect job
    let rec_result := detectAllLoop detect rest
    (rec_result.1, r :: rec_result.2)

/-- detectAnomaliesForAllJobs is AnomalyService.DetectAnomaliesForAllJobs:
enum is the outcome of the SELECT over the jobs table (a list of per-row
scan outcomes on success); the call fails only on enumeration failure
(query or row scan), never on a per-record detection failure. -/
def detectAnomaliesForAllJobs
    (enum : Except String (List (Except String JobData)))
    (detect : JobData → Except String (List Anomaly)) :
    Except String Unit × List (Except String (List Anomaly)) :=
  match enum with
  | .error e => (.error ("error querying jobs: " ++ e), [])
  | .ok rows => detectAllLoop detect rows

/-! Concrete fixtures used by witnesses and counterexamples. -/

/-- jobFull has every required field non-empty, no salaries, rating 0. -/
def jobFull : JobData :=
  { companyName := "Acme", companyRating := GoFloat.finite 0,
    companyAddress := "1 Main St", companyWebsite := "acme.example",
    jobTitle := "Engineer", jobID := "job-1", jobLink := "acme.example/j",
    jobDescription := "desc", minSalary := none, maxSalary := none,
    city := "Springfield" }

/-- jobMissing lacks company_name and job_link. -/
def jobMissing : JobData :=
  { jobFull with companyName := "", jobLink := "", jobID := "job-2" }

/-- jobSalary1 carries max salary 1. -/
def jobSalary1 : JobData :=
  { jobFull with maxSalary := some (GoFloat.finite 1), jobID := "job-3" }

/-- jobNeg carries max salary -1000. -/
def jobNeg : JobData :=
  { jobFull with maxSalary := some (GoFloat.finite (-1000)), jobID := "job-4" }

/-- jobMid carries max salary 500. -/
def jobMid : JobData :=
  { jobFull with maxSalary := some (GoFloat.finite 500), jobID := "job-5" }

/-- statsBase: means 0, both standard deviations 1. -/
def statsBase : Statistics :=
  { avgSalary := GoFloat.finite 0, salaryStdDev := GoFloat.finite 1,
    avgRating := GoFloat.finite 0, ratingStdDev := GoFloat.finite 1 }

/-- statsZeroSigma: salary standard deviation exactly 0. -/
def statsZeroSigma : Statistics :=
  { avgSalary := GoFloat.finite 0, salaryStdDev := GoFloat.finite 0,
    avgRating := GoFloat.finite 0, ratingStdDev := GoFloat.finite 1 }

/-- statsWide: salary standard deviation large enough that no fixture
salary deviates. -/
def statsWide : Statistics :=
  { avgSalary := GoFloat.finite 0, salaryStdDev := GoFloat.finite 1000000,
    avgRating := GoFloat.finite 0, ratingStdDev := GoFloat.finite 1 }

/-- ruleOld is an active company_rating rule created at time 1. -/
def ruleOld : AnomalyRule :=
  { id := 1, name := "rating-old", description := "older rating rule",
    type := "company_rating", operator := ">=", value := GoFloat.finite 0,
    isActive := true, createdAt := 1 }

/-- ruleNew is an active company_rating rule created at time 2. -/
def ruleNew : AnomalyRule :=
  { id := 2, name := "rating-new", description := "newer rating rule",
    type := "company_rating", operator := ">=", value := GoFloat.finite 0,
    isActive := true, createdAt := 2 }

/-- ruleNegSalary is the rule of the spec example: max_salary < 0. -/
def ruleNegSalary : AnomalyRule :=
  { id := 3, name := "neg-salary", description := "negative salary",
    type := "max_salary", operator := "<", value := GoFloat.finite 0,
    isActive := true, createdAt := 3 }

/-- ruleRatingLow is an active company_rating rule matching rating 0. -/
def ruleRatingLow : AnomalyRule :=
  { id := 4, name := "rating-low", description := "rating at most 1",
    type := "company_rating", operator := "<=", value := GoFloat.finite 1,
    isActive := true, createdAt := 4 }

/-- ruleMalformed has an unknown operator and an unknown metric. -/
def ruleMalformed : AnomalyRule :=
  { id := 5, name := "malformed", description := "not a valid rule",
    type := "bogus_metric", operator := "!=", value := GoFloat.finite 0,
    isActive := true, createdAt := 5 }

/-- jobSalary4 carries max salary 4 (z-score 4 against statsBase). -/
def jobSalary4 : JobData :=
  { jobFull with maxSalary := some (GoFloat.finite 4), jobID := "job-6" }

/-- jobSalary3 carries max salary 3 (z-score exactly 3 against statsBase). -/
def jobSalary3 : JobData :=
  { jobFull with maxSalary := some (GoFloat.finite 3), jobID := "job-7" }

/-- jobRating4 carries company rating 4 (z-score 4 against statsBase). -/
def jobRating4 : JobData :=
  { jobFull with companyRating := GoFloat.finite 4, jobID := "job-8" }

/-- anomalyStored is a stored finding for job-1, used as a C10 fixture. -/
def anomalyStored : Anomaly :=
  { jobID := "job-1", type := "null_values", description := "d",
    value := GoFloat.finite 0, threshold := GoFloat.finite 0,
    operator := "=", violations := [] }

/-! Helper lemmas about the embedded arithmetic and the detection
pipeline, shared by the claim theorems. -/

/-- ratSub agrees with rational subtraction. -/
theorem ratSub_eq (a b : ℚ) : ratSub a b = a - b := (Rat.sub_def' a b).symm

/-- ratDiv agrees with rational division. -/
theorem ratDiv_eq (a b : ℚ) : ratDiv a b = a / b := (Rat.div_def' a b).symm

/-- Subtraction of finite values is exact rational subtraction. -/
theorem GoFloat.sub_finite (a b : ℚ) :
    GoFloat.sub (GoFloat.finite a) (GoFloat.finite b) =
      GoFloat.finite (a - b) := by
  simp [GoFloat.sub, ratSub_eq]

/-- Division of finite values by a nonzero finite value is exact
rational division. -/
theorem GoFloat.div_finite (a b : ℚ) (hb : b ≠ 0) :
    GoFloat.div (GoFloat.finite a) (GoFloat.finite b) =
      GoFloat.finite (a / b) := by
  simp [GoFloat.div, hb, ratDiv_eq]

/-- Absolute value of a finite value. -/
theorem GoFloat.abs_finite (q : ℚ) :
    GoFloat.abs (GoFloat.finite q) = GoFloat.finite |q| := rfl

/-- Strict comparison of finite values decides the rational comparison. -/
theorem GoFloat.gt_finite (a b : ℚ) :
    GoFloat.gt (GoFloat.finite a) (GoFloat.finite b) = decide (b < a) := rfl

/-- Equality test of finite values decides rational equality. -/
theorem GoFloat.beq_finite (a b : ℚ) :
    GoFloat.beq (GoFloat.finite a) (GoFloat.finite b) = decide (a = b) := rfl

/-- Every finding of the null phase is the null anomaly of the job. -/
theorem mem_nullPhase {save : Anomaly → Bool} {job : JobData} {a : Anomaly}
    (h : a ∈ nullPhase save job) : a = nullAnomaly job := by
  unfold nullPhase at h
  split at h
  · split at h <;> simp_all
  · simp_all

/-- Every finding of the salary deviation phase is a salary deviation
anomaly of the job, with threshold the salary mean. -/
theorem mem_salaryDevPhase {save : Anomaly → Bool} {stats : Statistics}
    {job : JobData} {a : Anomaly} (h : a ∈ salaryDevPhase save stats job) :
    ∃ v, a = salaryDeviationAnomaly job v stats.avgSalary := by
  unfold salaryDevPhase at h
  split at h
  case _ v heq =>
    simp only at h
    split at h
    · split at h
      · simp at h; exact ⟨v, h⟩
      · simp at h
    · simp at h
  case _ => simp at h

/-- Every finding of the rating deviation phase is the rating deviation
anomaly of the job, with threshold the rating mean. -/
theorem mem_ratingDevPhase {save : Anomaly → Bool} {stats : Statistics}
    {job : JobData} {a : Anomaly} (h : a ∈ ratingDevPhase save stats job) :
    a = ratingDeviationAnomaly job stats.avgRating := by
  unfold ratingDevPhase at h
  split at h
  · simp at h
  · simp only at h
    split at h
    · split at h
      · simp at h; exact h
      · simp at h
    · simp at h

/-- Every finding of the rule loop carries one of the three rule metric
names as its type, and an empty violation list. -/
theorem mem_applyRules {save : Anomaly → Bool} {job : JobData}
    {rules : List AnomalyRule} {a : Anomaly}
    (h : a ∈ applyRules save job rules) :
    (a.type = "max_salary" ∨ a.type = "min_salary" ∨
      a.type = "company_rating") ∧ a.violations = [] := by
  induction rules with
  | nil => simp [applyRules] at h
  | cons rule rest ih =>
    rw [applyRules, List.mem_append] at h
    rcases h with h | h
    · rcases hv : (if rule.isActive then ruleValue job rule.type else none)
        with _ | v
      · rw [hv] at h; simp at h
      · rw [hv] at h
        have htype : ruleValue job rule.type = some v := by
          by_cases ha : rule.isActive
          · simpa [ha] using hv
          · simp [ha] at hv
        simp only at h
        have ha2 : a = ruleAnomaly job rule v := by
          split at h
          · split at h
            · simp at h; exact h
            · simp at h
          · simp at h
        have htyp3 : rule.type = "max_salary" ∨ rule.type = "min_salary" ∨
            rule.type = "company_rating" := by
          unfold ruleValue at htype
          split_ifs at htype with h1 h2 h3
          exacts [Or.inl h1, Or.inr (Or.inl h2), Or.inr (Or.inr h3)]
        subst ha2
        exact ⟨htyp3, rfl⟩
    · exact ih h

/-- The rule loop treats each rule independently of the rest of the
list: evaluating a concatenation concatenates the findings. -/
theorem applyRules_append (save : Anomaly → Bool) (job : JobData)
    (rs1 rs2 : List AnomalyRule) :
    applyRules save job (rs1 ++ rs2) =
      applyRules save job rs1 ++ applyRules save job rs2 := by
  induction rs1 with
  | nil => simp [applyRules]
  | cons rule rest ih => rw [List.cons_append, applyRules, applyRules, ih,
      List.append_assoc]

/-- detectAnomalies on successful statistics and rule queries returns
the four phases, in source order. -/
theorem detectAnomalies_ok (stats : Statistics) (rules : List AnomalyRule)
    (save : Anomaly → Bool) (job : JobData) :
    detectAnomalies (.ok stats) (.ok rules) save job =
      .ok (detectOk stats rules save job) := rfl

/-- Null-values findings of a full detection run are exactly the null
phase output. -/
theorem detectOk_filter_null (stats : Statistics) (rules : List AnomalyRule)
    (save : Anomaly → Bool) (job : JobData) :
    (detectOk stats rules save job).filter isNullFinding =
      nullPhase save job := by
  have h1 : (nullPhase save job).filter isNullFinding = nullPhase save job :=
    List.filter_eq_self.mpr (fun a ha => by
      rw [mem_nullPhase ha]; simp [isNullFinding, nullAnomaly])
  have h2 : (salaryDevPhase save stats job).filter isNullFinding = [] :=
    List.filter_eq_nil_iff.mpr (fun a ha => by
      rcases mem_salaryDevPhase ha with ⟨v, rfl⟩
      simp [isNullFinding, salaryDeviationAnomaly])
  have h3 : (ratingDevPhase save stats job).filter isNullFinding = [] :=
    List.filter_eq_nil_iff.mpr (fun a ha => by
      rw [mem_ratingDevPhase ha]; simp [isNullFinding, ratingDeviationAnomaly])
  have h4 : (applyRules save job rules).filter isNullFinding = [] :=
    List.filter_eq_nil_iff.mpr (fun a ha => by
      rcases mem_applyRules ha with ⟨ht, _⟩
      rcases ht with h | h | h <;> simp [isNullFinding, h])
  simp [detectOk, List.filter_append, h1, h2, h3, h4]

/-- Max-salary deviation findings of a full detection run are exactly
the salary deviation phase output. -/
theorem detectOk_filter_salaryDev (stats : Statistics)
    (rules : List AnomalyRule) (save : Anomaly → Bool) (job : JobData) :
    (detectOk stats rules save job).filter isSalaryDevFinding =
      salaryDevPhase save stats job := by
  have h1 : (nullPhase save job).filter isSalaryDevFinding = [] :=
    List.filter_eq_nil_iff.mpr (fun a ha => by
      rw [mem_nullPhase ha]; simp [isSalaryDevFinding, nullAnomaly])
  have h2 : (salaryDevPhase save stats job).filter isSalaryDevFinding =
      salaryDevPhase save stats job :=
    List.filter_eq_self.mpr (fun a ha => by
      rcases mem_salaryDevPhase ha with ⟨v, rfl⟩
      simp [isSalaryDevFinding, salaryDeviationAnomaly])
  have h3 : (ratingDevPhase save stats job).filter isSalaryDevFinding = [] :=
    List.filter_eq_nil_iff.mpr (fun a ha => by
      rw [mem_ratingDevPhase ha]
      simp [isSalaryDevFinding, ratingDeviationAnomaly])
  have h4 : (applyRules save job rules).filter isSalaryDevFinding = [] :=
    List.filter_eq_nil_iff.mpr (fun a ha => by
      rcases mem_applyRules ha with ⟨ht, _⟩
      rcases ht with h | h | h <;> simp [isSalaryDevFinding, h])
  simp [detectOk, List.filter_append, h1, h2, h3, h4]

/-- Company-rating deviation findings of a full detection run are
exactly the rating deviation phase output. -/
theorem detectOk_filter_ratingDev (stats : Statistics)
    (rules : List AnomalyRule) (save : Anomaly → Bool) (job : JobData) :
    (detectOk stats rules save job).filter isRatingDevFinding =
      ratingDevPhase save stats job := by
  have h1 : (nullPhase save job).filter isRatingDevFinding = [] :=
    List.filter_eq_nil_iff.mpr (fun a ha => by
      rw [mem_nullPhase ha]; simp [isRatingDevFinding, nullAnomaly])
  have h2 : (salaryDevPhase save stats job).filter isRatingDevFinding = [] :=
    List.filter_eq_nil_iff.mpr (fun a ha => by
      rcases mem_salaryDevPhase ha with ⟨v, rfl⟩
      simp [isRatingDevFinding, salaryDeviationAnomaly])
  have h3 : (ratingDevPhase save stats job).filter isRatingDevFinding =
      ratingDevPhase save stats job :=
    List.filter_eq_self.mpr (fun a ha => by
      rw [mem_ratingDevPhase ha]
      simp [isRatingDevFinding, ratingDeviationAnomaly])
  have h4 : (applyRules save job rules).filter isRatingDevFinding = [] :=
    List.filter_eq_nil_iff.mpr (fun a ha => by
      rcases mem_applyRules ha with ⟨ht, _⟩
      rcases ht with h | h | h <;> simp [isRatingDevFinding, h])
  simp [detectOk, List.filter_append, h1, h2, h3, h4]

/-- Rule-threshold findings of a full detection run are exactly the
rule loop output. -/
theorem detectOk_filter_rule (stats : Statistics)
    (rules : List AnomalyRule) (save : Anomaly → Bool) (job : JobData) :
    (detectOk stats rules save job).filter isRuleFinding =
      applyRules save job rules := by
  have h1 : (nullPhase save job).filter isRuleFinding = [] :=
    List.filter_eq_nil_iff.mpr (fun a ha => by
      rw [mem_nullPhase ha]; simp [isRuleFinding, nullAnomaly])
  have h2 : (salaryDevPhase save stats job).filter isRuleFinding = [] :=
    List.filter_eq_nil_iff.mpr (fun a ha => by
      rcases mem_salaryDevPhase ha with ⟨v, rfl⟩
      simp [isRuleFinding, salaryDeviationAnomaly])
  have h3 : (ratingDevPhase save stats job).filter isRuleFinding = [] :=
    List.filter_eq_nil_iff.mpr (fun a ha => by
      rw [mem_ratingDevPhase ha]
      simp [isRuleFinding, ratingDeviationAnomaly])
  have h4 : (applyRules save job rules).filter isRuleFinding =
      applyRules save job rules :=
    List.filter_eq_self.mpr (fun a ha => by
      rcases mem_applyRules ha with ⟨ht, _⟩
      rcases ht with h | h | h <;> simp [isRuleFinding, h])
  simp [detectOk, List.filter_append, h1, h2, h3, h4]

/-- Insertion permutes: inserting a rule yields a permutation of
consing it. -/
theorem insertByCreatedAtDesc_perm (r : AnomalyRule) (l : List AnomalyRule) :
    (insertByCreatedAtDesc r l).Perm (r :: l) := by
  induction l with
  | nil => simp [insertByCreatedAtDesc]
  | cons x xs ih =>
    unfold insertByCreatedAtDesc
    split
    · exact (ih.cons x).trans (List.Perm.swap r x xs)
    · exact List.Perm.refl _

/-- The rule query returns a permutation of the store: no rule is
dropped or duplicated by the ordering. -/
theorem sortByCreatedAtDesc_perm (l : List AnomalyRule) :
    (sortByCreatedAtDesc l).Perm l := by
  induction l with
  | nil => exact List.Perm.refl _
  | cons r rs ih =>
    exact (insertByCreatedAtDesc_perm r _).trans (ih.cons r)

/-- Insertion preserves descending created-at order. -/
theorem insertByCreatedAtDesc_sorted (r : AnomalyRule) (l : List AnomalyRule)
    (hl : List.Pairwise (fun a b => b.createdAt ≤ a.createdAt) l) :
    List.Pairwise (fun a b => b.createdAt ≤ a.createdAt)
      (insertByCreatedAtDesc r l) := by
  induction l with
  | nil => simp [insertByCreatedAtDesc]
  | cons x xs ih =>
    have hx := (List.pairwise_cons.mp hl).1
    have hxs := (List.pairwise_cons.mp hl).2
    unfold insertByCreatedAtDesc
    split
    case isTrue h =>
      apply List.pairwise_cons.mpr
      refine ⟨fun y hy => ?_, ih hxs⟩
      rcases List.mem_cons.mp ((insertByCreatedAtDesc_perm r xs).mem_iff.mp hy)
        with rfl | hy2
      · exact h
      · exact hx y hy2
    case isFalse h =>
      apply List.pairwise_cons.mpr
      refine ⟨fun y hy => ?_, hl⟩
      rcases List.mem_cons.mp hy with rfl | hy2
      · exact Nat.le_of_not_le h
      · exact Nat.le_trans (hx y hy2) (Nat.le_of_not_le h)

/-- The rule query output is in descending created-at order (newest
first). -/
theorem sortByCreatedAtDesc_sorted (l : List AnomalyRule) :
    List.Pairwise (fun a b => b.createdAt ≤ a.createdAt)
      (sortByCreatedAtDesc l) := by
  induction l with
  | nil => simp [sortByCreatedAtDesc]
  | cons r rs ih => exact insertByCreatedAtDesc_sorted r _ ih

/-- C1 counterexample: on a record with missing required fields (whose
null-values finding is persisted by the null phase), a failing
statistics query makes the whole DetectAnomalies call fail and return no
findings, and so does a failing rule fetch: the other phases do not run
and the caller receives nothing, contrary to the claim. -/
theorem C1_counterexample :
    nullViolations jobMissing ≠ [] ∧
    detectAnomalies (.error "connection refused") (.ok []) (fun _ => true)
      jobMissing = .error "error getting statistics: connection refused" ∧
    detectAnomalies (.ok statsBase) (.error "connection refused")
      (fun _ => true) jobMissing =
      .error "error getting anomaly rules via service: connection refused" :=
  ⟨by decide, by decide, by decide⟩

/-- C1 amended: a statistics-query failure or a rule-fetch failure is
fatal to the whole DetectAnomalies call, which then returns no findings;
only when both queries succeed does the call succeed, and then it always
succeeds regardless of which per-finding inserts fail (per-finding
persistence failures are the only non-fatal ones). -/
theorem C1_phase_failure_fatal :
    (∀ (e : String) (getRules : Except String (List AnomalyRule))
        (save : Anomaly → Bool) (job : JobData),
      detectAnomalies (.error e) getRules save job =
        .error ("error getting statistics: " ++ e)) ∧
    (∀ (stats : Statistics) (e : String) (save : Anomaly → Bool)
        (job : JobData),
      detectAnomalies (.ok stats) (.error e) save job =
        .error ("error getting anomaly rules via service: " ++ e)) ∧
    (∀ (stats : Statistics) (rules : List AnomalyRule) (save : Anomaly → Bool)
        (job : JobData),
      detectAnomalies (.ok stats) (.ok rules) save job =
        .ok (detectOk stats rules save job)) :=
  ⟨fun _ _ _ _ => rfl, fun _ _ _ _ => rfl, fun _ _ _ _ => rfl⟩

/-- C2 counterexample: with salary standard deviation exactly 0 and a
record whose max salary (1) differs from the mean (0), DetectAnomalies
does emit a deviation finding for max_salary: the z-score division is
not guarded and evaluates to infinity. -/
theorem C2_counterexample :
    statsZeroSigma.salaryStdDev = GoFloat.finite 0 ∧
    detectAnomalies (.ok statsZeroSigma) (.ok []) (fun _ => true) jobSalary1 =
      .ok [salaryDeviationAnomaly jobSalary1 (GoFloat.finite 1)
            (GoFloat.finite 0)] :=
  ⟨rfl, by decide⟩

/-- C2 amended: when the standard deviation of a metric is exactly 0
the z-score division is performed anyway; the phase emits no deviation
finding only when the value equals the mean (z-score NaN), and emits one
whenever the value differs from the mean (z-score plus or minus
infinity, whose absolute value exceeds every threshold). -/
theorem C2_zero_sigma_unguarded :
    ∀ (stats : Statistics) (job : JobData) (v mu w mur : ℚ),
      (job.maxSalary = some (GoFloat.finite v) →
        stats.avgSalary = GoFloat.finite mu →
        stats.salaryStdDev = GoFloat.finite 0 →
        salaryDevPhase (fun _ => true) stats job =
          (if v = mu then []
           else [salaryDeviationAnomaly job (GoFloat.finite v)
                  (GoFloat.finite mu)])) ∧
      (job.companyRating = GoFloat.finite w → w ≠ 0 →
        stats.avgRating = GoFloat.finite mur →
        stats.ratingStdDev = GoFloat.finite 0 →
        ratingDevPhase (fun _ => true) stats job =
          (if w = mur then []
           else [ratingDeviationAnomaly job (GoFloat.finite mur)])) := by
  intro stats job v mu w mur
  constructor
  · intro hms hmu hs
    unfold salaryDevPhase
    rw [hms, hmu, hs]
    simp only [GoFloat.sub_finite]
    by_cases h : v = mu
    · subst h
      simp [GoFloat.div, GoFloat.abs, GoFloat.gt]
    · have hne : v - mu ≠ 0 := sub_ne_zero.mpr h
      by_cases hpos : 0 < v - mu <;>
        simp [GoFloat.div, hne, hpos, GoFloat.abs, GoFloat.gt, h]
  · intro hcr hw hmu hs
    unfold ratingDevPhase
    rw [hcr, hmu, hs]
    have hb : GoFloat.beq (GoFloat.finite w) (GoFloat.finite 0) = false := by
      simp [GoFloat.beq, hw]
    rw [hb]
    simp only [GoFloat.sub_finite, Bool.false_eq_true, if_false]
    by_cases h : w = mur
    · subst h
      simp [GoFloat.div, GoFloat.abs, GoFloat.gt]
    · have hne : w - mur ≠ 0 := sub_ne_zero.mpr h
      by_cases hpos : 0 < w - mur <;>
        simp [GoFloat.div, hne, hpos, GoFloat.abs, GoFloat.gt, h]

/-- C2 witness: the amended theorem applied at the zero-sigma fixture. -/
theorem C2_witness :
    jobSalary1.maxSalary = some (GoFloat.finite 1) ∧
    statsZeroSigma.avgSalary = GoFloat.finite 0 ∧
    statsZeroSigma.salaryStdDev = GoFloat.finite 0 ∧
    salaryDevPhase (fun _ => true) statsZeroSigma jobSalary1 =
      [salaryDeviationAnomaly jobSalary1 (GoFloat.finite 1)
        (GoFloat.finite 0)] := by
  refine ⟨rfl, rfl, rfl, ?_⟩
  have h := (C2_zero_sigma_unguarded statsZeroSigma jobSalary1 1 0 0 0).1
    rfl rfl rfl
  rw [if_neg (by norm_num : ¬(1 : ℚ) = 0)] at h
  exact h


/-- C3: the violation list is exactly the set of required fields whose
string is empty, in field-definition order; when it is non-empty a full
detection run contains exactly one null-values finding, with value 0,
threshold 0, operator =, and that violation list; when every required
field is non-empty, no null-values finding is emitted. -/
theorem C3_null_values :
    ∀ (stats : Statistics) (rules : List AnomalyRule) (job : JobData),
      nullViolations job =
        requiredFields.filter (fun f => decide (fieldValue job f = "")) ∧
      (nullViolations job ≠ [] →
        (detectOk stats rules (fun _ => true) job).filter isNullFinding =
          [{ jobID := job.jobID, type := "null_values",
             description := "Required fields are null",
             value := GoFloat.finite 0, threshold := GoFloat.finite 0,
             operator := "=", violations := nullViolations job }]) ∧
      (nullViolations job = [] →
        (detectOk stats rules (fun _ => true) job).filter isNullFinding =
          []) := by
  intro stats rules job
  refine ⟨?_, ?_, ?_⟩
  · unfold nullViolations requiredFields fieldValue
    by_cases h1 : job.companyName = "" <;>
      by_cases h2 : job.jobTitle = "" <;>
      by_cases h3 : job.jobDescription = "" <;>
      by_cases h4 : job.city = "" <;>
      by_cases h5 : job.companyAddress = "" <;>
      by_cases h6 : job.companyWebsite = "" <;>
      by_cases h7 : job.jobLink = "" <;>
      simp [List.filter, h1, h2, h3, h4, h5, h6, h7]
  · intro hne
    rw [detectOk_filter_null]
    unfold nullPhase
    rw [if_pos (by simpa using List.length_pos.mpr hne)]
    simp [nullAnomaly]
  · intro heq
    rw [detectOk_filter_null]
    simp [nullPhase, heq]

/-- C3 witness: the theorem applied at a record missing two fields and
at a complete record. -/
theorem C3_witness :
    nullViolations jobMissing ≠ [] ∧
    (detectOk statsBase [] (fun _ => true) jobMissing).filter isNullFinding =
      [{ jobID := "job-2", type := "null_values",
         description := "Required fields are null",
         value := GoFloat.finite 0, threshold := GoFloat.finite 0,
         operator := "=", violations := ["company_name", "job_link"] }] ∧
    nullViolations jobFull = [] ∧
    (detectOk statsBase [] (fun _ => true) jobFull).filter isNullFinding =
      [] := by
  refine ⟨by decide, ?_, by decide, ?_⟩
  · have h := (C3_null_values statsBase [] jobMissing).2.1 (by decide)
    rw [h]
    decide
  · exact (C3_null_values statsBase [] jobFull).2.2 (by decide)

/-- C4: for a record carrying a numeric metric, with finite mean and
strictly positive finite standard deviation, a full detection run
contains a deviation finding for that metric exactly when the absolute
z-score strictly exceeds 3, and that finding names the one violating
field with the value as observed value and the mean as threshold. -/
theorem C4_deviation_iff :
    ∀ (stats : Statistics) (rules : List AnomalyRule) (job : JobData)
      (v mu s w mur sr : ℚ),
      (job.maxSalary = some (GoFloat.finite v) →
        stats.avgSalary = GoFloat.finite mu →
        stats.salaryStdDev = GoFloat.finite s → 0 < s →
        (detectOk stats rules (fun _ => true) job).filter isSalaryDevFinding =
          (if 3 < |(v - mu) / s| then
            [salaryDeviationAnomaly job (GoFloat.finite v) (GoFloat.finite mu)]
           else [])) ∧
      (job.companyRating = GoFloat.finite w → w ≠ 0 →
        stats.avgRating = GoFloat.finite mur →
        stats.ratingStdDev = GoFloat.finite sr → 0 < sr →
        (detectOk stats rules (fun _ => true) job).filter isRatingDevFinding =
          (if 3 < |(w - mur) / sr| then
            [ratingDeviationAnomaly job (GoFloat.finite mur)]
           else [])) := by
  intro stats rules job v mu s w mur sr
  constructor
  · intro hms hmu hs hspos
    rw [detectOk_filter_salaryDev]
    unfold salaryDevPhase
    rw [hms, hmu, hs]
    simp only [GoFloat.sub_finite, GoFloat.div_finite _ _ (ne_of_gt hspos),
      GoFloat.abs_finite, GoFloat.gt_finite]
    by_cases h : 3 < |(v - mu) / s| <;> simp [h, StdDevThreshold]
  · intro hcr hw hmu hs hspos
    rw [detectOk_filter_ratingDev]
    unfold ratingDevPhase
    rw [hcr, hmu, hs]
    have hb : GoFloat.beq (GoFloat.finite w) (GoFloat.finite 0) = false := by
      simp [GoFloat.beq, hw]
    rw [hb]
    simp only [GoFloat.sub_finite, GoFloat.div_finite _ _ (ne_of_gt hspos),
      GoFloat.abs_finite, GoFloat.gt_finite, Bool.false_eq_true, if_false]
    by_cases h : 3 < |(w - mur) / sr| <;> simp [h, StdDevThreshold]

/-- C4 witness: the theorem applied at z-score 4 (finding emitted), at
z-score exactly 3 (no finding: strict inequality), and at a rating
z-score 4. -/
theorem C4_witness :
    (0 : ℚ) < 1 ∧
    (detectOk statsBase [] (fun _ => true) jobSalary4).filter
        isSalaryDevFinding =
      [salaryDeviationAnomaly jobSalary4 (GoFloat.finite 4)
        (GoFloat.finite 0)] ∧
    (detectOk statsBase [] (fun _ => true) jobSalary3).filter
        isSalaryDevFinding = [] ∧
    (detectOk statsBase [] (fun _ => true) jobRating4).filter
        isRatingDevFinding =
      [ratingDeviationAnomaly jobRating4 (GoFloat.finite 0)] := by
  refine ⟨by norm_num, ?_, ?_, ?_⟩
  · have h := (C4_deviation_iff statsBase [] jobSalary4 4 0 1 0 0 1).1
      rfl rfl rfl (by norm_num)
    rw [if_pos (by rw [show ((4 : ℚ) - 0) / 1 = 4 by norm_num]; norm_num)] at h
    exact h
  · have h := (C4_deviation_iff statsBase [] jobSalary3 3 0 1 0 0 1).1
      rfl rfl rfl (by norm_num)
    rw [if_neg (by rw [show ((3 : ℚ) - 0) / 1 = 3 by norm_num]; norm_num)] at h
    exact h
  · have h := (C4_deviation_iff statsBase [] jobRating4 0 0 1 4 0 1).2
      rfl (by norm_num) rfl rfl (by norm_num)
    rw [if_pos (by rw [show ((4 : ℚ) - 0) / 1 = 4 by norm_num]; norm_num)] at h
    exact h

/-- C5 counterexample: a record whose company rating is the zero value
(the record does not carry the metric, by the nonzero-as-present
convention the statistics and deviation code use) still matches an
active company_rating rule, producing a finding with value 0: the rule
loop never skips the rating metric. -/
theorem C5_counterexample :
    jobFull.companyRating = GoFloat.finite 0 ∧
    ruleRatingLow.isActive = true ∧
    ruleRatingLow.type = "company_rating" ∧
    detectAnomalies (.ok statsBase) (.ok [ruleRatingLow]) (fun _ => true)
      jobFull = .ok [ruleAnomaly jobFull ruleRatingLow (GoFloat.finite 0)] :=
  ⟨rfl, rfl, rfl, by decide⟩

/-- C5 amended: the skip-on-absent behaviour holds for the two
pointer-typed metrics only: a max_salary rule is skipped when the record
has no max salary and a min_salary rule when it has no min salary, while
a company_rating rule is always evaluated against the rating field,
whose zero value stands in when the record has no rating. -/
theorem C5_absent_metric_skip :
    (∀ (save : Anomaly → Bool) (job : JobData) (rule : AnomalyRule)
        (rest : List AnomalyRule),
      job.maxSalary = none → rule.type = "max_salary" →
      applyRules save job (rule :: rest) = applyRules save job rest) ∧
    (∀ (save : Anomaly → Bool) (job : JobData) (rule : AnomalyRule)
        (rest : List AnomalyRule),
      job.minSalary = none → rule.type = "min_salary" →
      applyRules save job (rule :: rest) = applyRules save job rest) ∧
    (∀ (save : Anomaly → Bool) (job : JobData) (rule : AnomalyRule)
        (rest : List AnomalyRule),
      rule.type = "company_rating" → rule.isActive = true →
      applyRules save job (rule :: rest) =
        (if compareValues job.companyRating rule.value rule.operator then
          (if save (ruleAnomaly job rule job.companyRating) then
            [ruleAnomaly job rule job.companyRating]
           else [])
         else []) ++ applyRules save job rest) := by
  refine ⟨?_, ?_, ?_⟩
  · intro save job rule rest hms hty
    rw [applyRules]
    by_cases ha : rule.isActive <;> simp [ha, ruleValue, hty, hms]
  · intro save job rule rest hms hty
    rw [applyRules]
    by_cases ha : rule.isActive <;> simp [ha, ruleValue, hty, hms]
  · intro save job rule rest hty ha
    rw [applyRules]
    simp [ha, ruleValue, hty]

/-- C5 witness: the amended theorem applied to a max_salary rule and a
record without max salary. -/
theorem C5_witness :
    jobFull.maxSalary = none ∧
    ruleNegSalary.type = "max_salary" ∧
    applyRules (fun _ => true) jobFull [ruleNegSalary] =
      applyRules (fun _ => true) jobFull [] :=
  ⟨rfl, rfl,
    C5_absent_metric_skip.1 (fun _ => true) jobFull ruleNegSalary [] rfl rfl⟩

/-- C6 counterexample: two active matching rules created at times 1 and
2 are returned newest-first by the rule query, and DetectAnomalies emits
their two distinct findings in that order, which is not the
insertion/creation order. -/
theorem C6_counterexample :
    ruleOld.createdAt < ruleNew.createdAt ∧
    getAnomalyRules [ruleOld, ruleNew] = [ruleNew, ruleOld] ∧
    detectAnomalies (.ok statsBase) (.ok (getAnomalyRules [ruleOld, ruleNew]))
      (fun _ => true) jobFull =
      .ok [ruleAnomaly jobFull ruleNew (GoFloat.finite 0),
           ruleAnomaly jobFull ruleOld (GoFloat.finite 0)] ∧
    ruleAnomaly jobFull ruleNew (GoFloat.finite 0) ≠
      ruleAnomaly jobFull ruleOld (GoFloat.finite 0) := by
  refine ⟨by decide, by decide, by decide, by decide⟩

/-- C6 amended: the rule-threshold findings of a full detection run are
the rule loop applied to the store sorted by descending creation time
(newest first, the reverse of insertion order); the query output is a
permutation of the store in descending created-at order, and the rule
loop is compositional, so every active rule is evaluated independently
and every match produces its own finding. -/
theorem C6_rules_desc_order :
    (∀ (stats : Statistics) (store : List AnomalyRule) (save : Anomaly → Bool)
        (job : JobData),
      (detectOk stats (getAnomalyRules store) save job).filter isRuleFinding =
        applyRules save job (sortByCreatedAtDesc store)) ∧
    (∀ store : List AnomalyRule,
      List.Pairwise (fun a b => b.createdAt ≤ a.createdAt)
        (getAnomalyRules store) ∧
      (getAnomalyRules store).Perm store) ∧
    (∀ (save : Anomaly → Bool) (job : JobData) (rs1 rs2 : List AnomalyRule),
      applyRules save job (rs1 ++ rs2) =
        applyRules save job rs1 ++ applyRules save job rs2) :=
  ⟨fun stats store save job =>
     detectOk_filter_rule stats (getAnomalyRules store) save job,
   fun store => ⟨sortByCreatedAtDesc_sorted store, sortByCreatedAtDesc_perm store⟩,
   applyRules_append⟩

/-- C7: compareValues on finite values decides the five comparisons,
with exact equality for the = operator; and the spec example holds: an
active max_salary < 0 rule produces, on a record with max salary -1000,
exactly one finding carrying value -1000, threshold 0 and operator <,
and produces nothing on a record with max salary 500. -/
theorem C7_compareValues :
    (∀ v t : ℚ, compareValues (GoFloat.finite v) (GoFloat.finite t) ">" =
      decide (v > t)) ∧
    (∀ v t : ℚ, compareValues (GoFloat.finite v) (GoFloat.finite t) ">=" =
      decide (v ≥ t)) ∧
    (∀ v t : ℚ, compareValues (GoFloat.finite v) (GoFloat.finite t) "<" =
      decide (v < t)) ∧
    (∀ v t : ℚ, compareValues (GoFloat.finite v) (GoFloat.finite t) "<=" =
      decide (v ≤ t)) ∧
    (∀ v t : ℚ, compareValues (GoFloat.finite v) (GoFloat.finite t) "=" =
      decide (v = t)) ∧
    detectAnomalies (.ok statsWide) (.ok [ruleNegSalary]) (fun _ => true)
      jobNeg =
      .ok [ruleAnomaly jobNeg ruleNegSalary (GoFloat.finite (-1000))] ∧
    detectAnomalies (.ok statsWide) (.ok [ruleNegSalary]) (fun _ => true)
      jobMid = .ok [] :=
  ⟨fun _ _ => rfl, fun _ _ => rfl, fun _ _ => rfl, fun _ _ => rfl,
   fun _ _ => rfl, by decide, by decide⟩

/-- C8 counterexample: a rule whose operator (!=) is not one of the five
valid operators and whose metric is unknown is stored unchanged by
CreateAnomalyRule: no validation error occurs at creation time. -/
theorem C8_counterexample :
    IsValidOperator ruleMalformed.operator = false ∧
    createAnomalyRule true [] ruleMalformed = .ok [ruleMalformed] :=
  ⟨by decide, by decide⟩

/-- C8 amended: CreateAnomalyRule stores any rule without examining its
fields whenever the INSERT succeeds; malformed rules are instead
neutralised at evaluation time: an operator outside the valid set never
matches (compareValues returns false) and a rule whose metric resolves
no record value is skipped by the rule loop. -/
theorem C8_no_validation_at_creation :
    (∀ (store : List AnomalyRule) (rule : AnomalyRule),
      createAnomalyRule true store rule = .ok (store ++ [rule])) ∧
    (∀ op : String, IsValidOperator op = false →
      ∀ v t : GoFloat, compareValues v t op = false) ∧
    (∀ (save : Anomaly → Bool) (job : JobData) (rule : AnomalyRule)
        (rest : List AnomalyRule),
      ruleValue job rule.type = none →
      applyRules save job (rule :: rest) = applyRules save job rest) := by
  refine ⟨fun store rule => rfl, ?_, ?_⟩
  · intro op h v t
    simp only [IsValidOperator, ValidOperators] at h
    simp only [List.contains, List.elem_eq_mem, List.mem_cons,
      List.not_mem_nil, or_false, decide_eq_false_iff_not, not_or] at h
    obtain ⟨h1, h2, h3, h4, h5⟩ := h
    simp [compareValues, h1, h2, h3, h4, h5]
  · intro save job rule rest h
    rw [applyRules]
    by_cases ha : rule.isActive <;> simp [ha, h]

/-- C8 witness: the amended theorem applied at the malformed fixture
rule and an unknown operator. -/
theorem C8_witness :
    IsValidOperator "!=" = false ∧
    compareValues (GoFloat.finite 1) (GoFloat.finite 1) "!=" = false ∧
    ruleValue jobFull ruleMalformed.type = none ∧
    applyRules (fun _ => true) jobFull [ruleMalformed] =
      applyRules (fun _ => true) jobFull [] := by
  refine ⟨by decide, ?_, by decide, ?_⟩
  · exact C8_no_validation_at_creation.2.1 "!=" (by decide)
      (GoFloat.finite 1) (GoFloat.finite 1)
  · exact C8_no_validation_at_creation.2.2 (fun _ => true) jobFull
      ruleMalformed [] (by decide)

/-- The row loop over successfully scanned rows invokes detection on
every row, in order, and never fails. -/
theorem detectAllLoop_map_ok
    (detect : JobData → Except String (List Anomaly)) (jobs : List JobData) :
    detectAllLoop detect (jobs.map Except.ok) = (.ok (), jobs.map detect) := by
  induction jobs with
  | nil => rfl
  | cons j js ih => simp [detectAllLoop, ih]

/-- C9: over a population of N successfully enumerated records,
DetectAnomaliesForAllJobs invokes DetectAnomalies exactly N times, once
per record in order (the invocation trace is the map of the detection
function over the records, so a failure on record k leaves the
invocation of record k+1 in place), the call itself succeeds regardless
of per-record detection failures, and it fails when the enumeration
fails. -/
theorem C9_detect_all :
    (∀ (jobs : List JobData)
        (detect : JobData → Except String (List Anomaly)),
      detectAnomaliesForAllJobs (.ok (jobs.map Except.ok)) detect =
        (.ok (), jobs.map detect)) ∧
    (∀ (jobs : List JobData)
        (detect : JobData → Except String (List Anomaly)),
      (detectAnomaliesForAllJobs (.ok (jobs.map Except.ok)) detect).2.length =
        jobs.length) ∧
    (∀ (e : String) (detect : JobData → Except String (List Anomaly)),
      detectAnomaliesForAllJobs (.error e) detect =
        (.error ("error querying jobs: " ++ e), [])) := by
  refine ⟨?_, ?_, fun e detect => rfl⟩
  · intro jobs detect
    exact detectAllLoop_map_ok detect jobs
  · intro jobs detect
    rw [detectAnomaliesForAllJobs, detectAllLoop_map_ok]
    simp

/-- C10: when no stored finding references the requested record
identifier, GetAnomaliesByJobID returns an empty list and no error. -/
theorem C10_no_findings_ok_empty :
    ∀ (store : List Anomaly) (jid : String),
      (∀ a ∈ store, a.jobID ≠ jid) →
      getAnomaliesByJobID true store jid = .ok [] := by
  intro store jid h
  unfold getAnomaliesByJobID
  have hf : store.filter (fun a => a.jobID == jid) = [] :=
    List.filter_eq_nil_iff.mpr (fun a ha => by simp [h a ha])
  simp [hf]

/-- C10 witness: the theorem applied at a store holding one finding for
a different record. -/
theorem C10_witness :
    (∀ a ∈ [anomalyStored], a.jobID ≠ "job-404") ∧
    getAnomaliesByJobID true [anomalyStored] "job-404" = .ok [] :=
  ⟨by decide, C10_no_findings_ok_empty [anomalyStored] "job-404" (by decide)⟩
